import Mathlib

/-!
Verification of the `auth` package of the micrified.com backend.

The Go source is shallowly embedded: machine integers become `Int` (with an
explicit two's-complement wrap where the program's `int64` arithmetic can
overflow), `time.Time` and `time.Duration` become nanosecond counts of type
`Int`, the `time.Now()` calls become explicit `now` parameters, the service's
`SyncMap` fields become functions `String → Option _`, and the randomness
drawn from `crypto/rand` becomes an explicit argument.  The SHAKE-256
extendable-output function from `golang.org/x/crypto/sha3` is external to the
repository and is embedded as a fixed computable stand-in; the development
relies only on facts that hold of the library function (the output is a
function of the input data and the requested length alone, because
`sha3.ShakeSum256(hash, data)` overwrites the destination buffer `hash`
with a digest of `data`).
-/

namespace Auth

/-! ### Time units -/

/-- One `time.Second` expressed in nanoseconds (`time.Duration` counts
nanoseconds in an `int64`). -/
def nsPerSecond : Int := 1000000000

/-- Two's-complement wrap of an integer into the `int64` range
`[-2^63, 2^63)`.  Go defines signed integer overflow to wrap. -/
def wrap64 (x : Int) : Int := (x + 2 ^ 63) % 2 ^ 64 - 2 ^ 63

/-- Result of `time.Duration(seconds) * time.Second`: the multiplication is
performed on `int64` and wraps on overflow. -/
def durationNs (seconds : Int) : Int := wrap64 (seconds * nsPerSecond)

/-! ### Configuration and service construction (part_006, lines 97-128) -/

structure Config where
  Base   : Int
  Factor : Int
  Limit  : Int
  Retry  : Int
deriving DecidableEq

/-- Conditions enforced by `NewService`: `Retry >= 0`, `Base >= 1`,
`Base <= Limit`, `Factor >= 1`. -/
def ValidConfig (c : Config) : Prop :=
  0 ≤ c.Retry ∧ 1 ≤ c.Base ∧ c.Base ≤ c.Limit ∧ 1 ≤ c.Factor

instance (c : Config) : Decidable (ValidConfig c) := by
  unfold ValidConfig; infer_instance

/-- Embedding of `NewService` restricted to its validation logic: the
function rejects a config exactly when one of the three checks fails. -/
def NewService (c : Config) : Except String Config :=
  if c.Retry < 0 ∨ c.Base < 1 then
    .error "Unmet condition: Retry >= 0, Base >= 1"
  else if c.Limit < c.Base then
    .error "Unmet condition: Base <= Limit"
  else if c.Factor < 1 then
    .error "Unmet condition: 1 < Factor"
  else
    .ok c

/-- A configuration is accepted by `NewService` exactly when it satisfies
`ValidConfig`. -/
theorem NewService_isOk_iff (c : Config) :
    (NewService c).isOk = true ↔ ValidConfig c := by
  unfold NewService ValidConfig
  split_ifs with h1 h2 h3 <;> simp [Except.isOk, Except.toBool] <;> omega

/-! ### Penalty (part_006, lines 323-360) -/

structure Penalty where
  Deadline : Int
  Count    : Int
deriving DecidableEq

/-- Value of `int(math.Pow(float64(f), float64(e)))` on the argument ranges
this program reaches.  For `e ≥ 0` the power is integer-valued and the
`float64` computation is exact on every value the claims exercise (all below
`2^53`); for `e < 0` the real power `f^e` lies in `(0, 1]` when `f ≥ 1` and
Go's conversion to `int` truncates toward zero. -/
def mathPowInt (f e : Int) : Int :=
  if 0 ≤ e then f ^ e.toNat else if f = 1 then 1 else 0

/-- Embedding of `penaltyFunc(i, base, factor, retry)`:
`base * int(math.Pow(float64(factor), float64(i - retry)))`. -/
def penaltyFunc (i base factor retry : Int) : Int :=
  base * mathPowInt factor (i - retry)

/-- The duration (in seconds) computed at the top of `Penalty.Refresh`:
zero below the retry threshold, the backoff value at or above it. -/
def refreshDuration (c : Config) (count : Int) : Int :=
  if count ≥ c.Retry then penaltyFunc count c.Base c.Factor c.Retry else 0

/-- Embedding of `Penalty.Refresh`: recompute the delay from the current
count, increment the count only while the delay is still below the limit,
and set the deadline to `now` plus the delay. -/
def Penalty.Refresh (p : Penalty) (c : Config) (now : Int) : Penalty :=
  let duration := refreshDuration c p.Count
  let increment : Int := if duration < c.Limit then 1 else 0
  { Deadline := now + durationNs duration
    Count    := p.Count + increment }

/-- Embedding of `NewPenalty`: a fresh entry has count 0; its delay is the
backoff value at index 0 when `Retry == 0` and zero otherwise. -/
def NewPenalty (c : Config) (now : Int) : Penalty :=
  let duration := if c.Retry = 0 then penaltyFunc 0 c.Base c.Factor c.Retry else 0
  { Deadline := now + durationNs duration
    Count    := 0 }

/-- The service's penalty map (`SyncMap[string, Penalty]`). -/
def PMap := String → Option Penalty

/-- Embedding of `Service.Penalise`: refresh an existing entry for the
address, or install a fresh one. -/
def Penalise (c : Config) (now : Int) (m : PMap) (ip : String) : PMap :=
  fun k =>
    if k = ip then
      some (match m ip with
            | some p => p.Refresh c now
            | none   => NewPenalty c now)
    else m k

/-- Embedding of `Service.Penalised`: true exactly when an entry exists and
`now` is strictly before its deadline (`time.Now().Before(deadline)`). -/
def Penalised (m : PMap) (now : Int) (ip : String) : Bool :=
  match m ip with
  | some p => decide (now < p.Deadline)
  | none   => false

/-- Embedding of `Service.NoPenalty`: remove any entry for the address. -/
def NoPenalty (m : PMap) (ip : String) : PMap :=
  fun k => if k = ip then none else m k

/-- The penalty map of a freshly constructed service. -/
def emptyPMap : PMap := fun _ => none

/-- State of the penalty map for one address after `n` consecutive
`Penalise` calls (all at time `now`) starting from a fresh service. -/
def penaliseN (c : Config) (now : Int) (ip : String) : Nat → PMap
  | 0     => emptyPMap
  | n + 1 => Penalise c now (penaliseN c now ip n) ip

/-- The configuration `{base=2, factor=2, limit=8, retry=3}` used by the
spec's penalty-escalation acceptance test. -/
def specConfig : Config := { Base := 2, Factor := 2, Limit := 8, Retry := 3 }

/-! ### Penalty lemmas -/

/-- The wrap is the identity inside the `int64` range. -/
theorem wrap64_eq_self {x : Int} (h1 : -2 ^ 63 ≤ x) (h2 : x < 2 ^ 63) :
    wrap64 x = x := by
  unfold wrap64
  have h : (x + 2 ^ 63) % 2 ^ 64 = x + 2 ^ 63 :=
    Int.emod_eq_of_lt (by omega) (by omega)
  omega

/-- The delay computed by `Refresh` is never negative for a configuration
accepted by `NewService`. -/
theorem refreshDuration_nonneg (c : Config) (hv : ValidConfig c) (k : Int) :
    0 ≤ refreshDuration c k := by
  obtain ⟨h1, h2, h3, h4⟩ := hv
  unfold refreshDuration penaltyFunc mathPowInt
  split_ifs with h h' h''
  · exact mul_nonneg (by omega) (pow_nonneg (by omega) _)
  · omega
  · omega
  · omega

/-- The delay computed by `Refresh` is monotone in the failure count for a
configuration accepted by `NewService`. -/
theorem refreshDuration_mono (c : Config) (hv : ValidConfig c) {a b : Int}
    (hab : a ≤ b) : refreshDuration c a ≤ refreshDuration c b := by
  obtain ⟨h1, h2, h3, h4⟩ := hv
  unfold refreshDuration
  split_ifs with ha hb'
  · unfold penaltyFunc mathPowInt
    rw [if_pos (by omega : (0:Int) ≤ a - c.Retry),
        if_pos (by omega : (0:Int) ≤ b - c.Retry)]
    exact mul_le_mul_of_nonneg_left
      (pow_le_pow_right₀ (by omega) (Int.toNat_le_toNat (by omega))) (by omega)
  · omega
  · unfold penaltyFunc mathPowInt
    rw [if_pos (by omega : (0:Int) ≤ b - c.Retry)]
    exact mul_nonneg (by omega) (pow_nonneg (by omega) _)
  · omega

/-- A refresh leaves the count unchanged or increments it by exactly one. -/
theorem refresh_count (p : Penalty) (c : Config) (t : Int) :
    (p.Refresh c t).Count = p.Count ∨ (p.Refresh c t).Count = p.Count + 1 := by
  simp only [Penalty.Refresh]
  split_ifs <;> simp

/-- The deadline written by a refresh is the refresh time plus the computed
delay converted to nanoseconds. -/
theorem refresh_deadline (p : Penalty) (c : Config) (t : Int) :
    (p.Refresh c t).Deadline = t + durationNs (refreshDuration c p.Count) := by
  simp [Penalty.Refresh]

/-! ### Claim C1 -/

/-- Claim C1, counterexample: with `{base=2, factor=2, limit=8, retry=3}`
the 4th consecutive `Penalise` call does NOT produce a positive delay — the
entry after the 4th call has its deadline exactly at the call time (delay
zero, count 3), and `Penalised` is still false.  The first `Penalise`
installs an entry with count 0, so the count lags the number of calls by
one and the first positive delay only appears on the 5th call. -/
theorem penalty_fourth_failure_not_positive :
    (penaliseN specConfig 0 "a" 4) "a" = some { Deadline := 0, Count := 3 } ∧
    ¬ (0 : Int) < ((penaliseN specConfig 0 "a" 4) "a").elim 0 Penalty.Deadline ∧
    Penalised (penaliseN specConfig 0 "a" 4) 0 "a" = false := by
  decide

/-- Claim C1, amended: with `{base=2, factor=2, limit=8, retry=3}`, the
first FOUR consecutive `Penalise` calls for one address leave
`Penalised = false` (zero delay); the 5th call produces the first positive
delay (2 s, deadline strictly after now); subsequent delays strictly
increase (2 s, 4 s, 8 s) until the delay reaches `limit = 8` s on the 7th
call, after which the delay no longer grows. -/
theorem penalty_escalation_schedule :
    Penalised (penaliseN specConfig 0 "a" 3) 0 "a" = false ∧
    Penalised (penaliseN specConfig 0 "a" 4) 0 "a" = false ∧
    (penaliseN specConfig 0 "a" 4) "a" = some { Deadline := 0, Count := 3 } ∧
    (penaliseN specConfig 0 "a" 5) "a"
      = some { Deadline := 2 * nsPerSecond, Count := 4 } ∧
    Penalised (penaliseN specConfig 0 "a" 5) 0 "a" = true ∧
    (penaliseN specConfig 0 "a" 6) "a"
      = some { Deadline := 4 * nsPerSecond, Count := 5 } ∧
    (penaliseN specConfig 0 "a" 7) "a"
      = some { Deadline := 8 * nsPerSecond, Count := 5 } ∧
    (penaliseN specConfig 0 "a" 8) "a"
      = some { Deadline := 8 * nsPerSecond, Count := 5 } ∧
    (penaliseN specConfig 0 "a" 9) "a"
      = some { Deadline := 8 * nsPerSecond, Count := 5 } := by
  decide

/-! ### Claim C8 -/

/-- Claim C8, amended: for a configuration accepted by `NewService` whose
base delay fits `int64` nanoseconds, the first `Penalise` for an address
with no entry installs `NewPenalty`; with `retry = 0` its deadline is `now`
plus `base` seconds (the backoff function at index 0, since
`base * factor^0 = base`) and there is no grace attempt, while with
`retry > 0` the entry has zero delay (deadline equal to `now`); the count
is 0 in both cases. -/
theorem newPenalty_initial_deadline (c : Config) (now : Int) (m : PMap)
    (ip : String) (hv : ValidConfig c) (hm : m ip = none)
    (hb : c.Base * nsPerSecond < 2 ^ 63) :
    (Penalise c now m ip) ip = some (NewPenalty c now) ∧
    (c.Retry = 0 →
      NewPenalty c now = { Deadline := now + c.Base * nsPerSecond, Count := 0 }) ∧
    (0 < c.Retry → NewPenalty c now = { Deadline := now, Count := 0 }) := by
  obtain ⟨h1, h2, h3, h4⟩ := hv
  refine ⟨by simp [Penalise, hm], ?_, ?_⟩
  · intro hr
    unfold NewPenalty penaltyFunc mathPowInt
    rw [if_pos hr]
    have he : (0:Int) - c.Retry = 0 := by omega
    rw [he]
    norm_num
    unfold durationNs
    rw [wrap64_eq_self (le_trans (by norm_num)
      (mul_nonneg (by omega) (by norm_num [nsPerSecond]))) hb]
  · intro hr
    unfold NewPenalty
    rw [if_neg (by omega)]
    simp [durationNs, wrap64]

/-- Witness for `newPenalty_initial_deadline` at the concrete configuration
`{base=2, factor=2, limit=8, retry=0}`, a fresh map and time 0. -/
theorem newPenalty_initial_deadline_witness :
    (Penalise ⟨2, 2, 8, 0⟩ 0 emptyPMap "a") "a" = some (NewPenalty ⟨2, 2, 8, 0⟩ 0) ∧
    ((⟨2, 2, 8, 0⟩ : Config).Retry = 0 →
      NewPenalty ⟨2, 2, 8, 0⟩ 0
        = { Deadline := 0 + (⟨2, 2, 8, 0⟩ : Config).Base * nsPerSecond, Count := 0 }) ∧
    (0 < (⟨2, 2, 8, 0⟩ : Config).Retry →
      NewPenalty ⟨2, 2, 8, 0⟩ 0 = { Deadline := 0, Count := 0 }) :=
  newPenalty_initial_deadline ⟨2, 2, 8, 0⟩ 0 emptyPMap "a"
    (by decide) rfl (by decide)

/-- Claim C8, counterexample: the configuration
`{base=10^10, factor=1, limit=10^10, retry=0}` is accepted by `NewService`,
yet the first penalty's deadline is not `now + base` seconds: the `int64`
multiplication `time.Duration(base) * time.Second` wraps and the deadline
lands far in the past. -/
theorem newPenalty_deadline_overflow :
    ValidConfig ⟨10000000000, 1, 10000000000, 0⟩ ∧
    (NewPenalty ⟨10000000000, 1, 10000000000, 0⟩ 0).Deadline
      = -8446744073709551616 ∧
    (NewPenalty ⟨10000000000, 1, 10000000000, 0⟩ 0).Deadline < 0 := by
  decide

/-! ### Claim C9 -/

/-- Claim C9, amended: for every penalty entry and every configuration
accepted by `NewService`, a refresh never decreases the count (the new
count is the old count or the old count plus one), and — provided the clock
does not go backwards between successive refreshes and the computed delay
fits `int64` nanoseconds (no overflow in the
`time.Duration(duration) * time.Second` conversion) — the deadline written
by the second refresh is never earlier than the deadline written by the
first. -/
theorem refresh_monotone (c : Config) (p : Penalty) (t1 t2 : Int)
    (hv : ValidConfig c) (ht : t1 ≤ t2)
    (hb : refreshDuration c (p.Refresh c t1).Count * nsPerSecond < 2 ^ 63) :
    ((p.Refresh c t1).Count = p.Count ∨ (p.Refresh c t1).Count = p.Count + 1) ∧
    (p.Refresh c t1).Deadline ≤ ((p.Refresh c t1).Refresh c t2).Deadline := by
  refine ⟨refresh_count p c t1, ?_⟩
  have hcle : p.Count ≤ (p.Refresh c t1).Count := by
    rcases refresh_count p c t1 with h | h <;> omega
  have hd12 : refreshDuration c p.Count
      ≤ refreshDuration c (p.Refresh c t1).Count :=
    refreshDuration_mono c hv hcle
  have h01 : 0 ≤ refreshDuration c p.Count := refreshDuration_nonneg c hv _
  have hns : (0:Int) ≤ nsPerSecond := by norm_num [nsPerSecond]
  have hmul : refreshDuration c p.Count * nsPerSecond
      ≤ refreshDuration c (p.Refresh c t1).Count * nsPerSecond :=
    mul_le_mul_of_nonneg_right hd12 hns
  have hw1 : durationNs (refreshDuration c p.Count)
      = refreshDuration c p.Count * nsPerSecond := by
    unfold durationNs
    exact wrap64_eq_self
      (le_trans (by norm_num) (mul_nonneg h01 hns)) (lt_of_le_of_lt hmul hb)
  have hw2 : durationNs (refreshDuration c (p.Refresh c t1).Count)
      = refreshDuration c (p.Refresh c t1).Count * nsPerSecond := by
    unfold durationNs
    exact wrap64_eq_self (le_trans (by norm_num)
      (mul_nonneg (refreshDuration_nonneg c hv _) hns)) hb
  rw [refresh_deadline p c t1, refresh_deadline (p.Refresh c t1) c t2, hw1, hw2]
  linarith

/-- Witness for `refresh_monotone` at the spec configuration, the entry
`{deadline 0, count 5}` and refresh times 0 and 1. -/
theorem refresh_monotone_witness :
    ((Penalty.Refresh ⟨0, 5⟩ specConfig 0).Count = (5:Int) ∨
      (Penalty.Refresh ⟨0, 5⟩ specConfig 0).Count = 5 + 1) ∧
    (Penalty.Refresh ⟨0, 5⟩ specConfig 0).Deadline
      ≤ ((Penalty.Refresh ⟨0, 5⟩ specConfig 0).Refresh specConfig 1).Deadline :=
  refresh_monotone specConfig ⟨0, 5⟩ 0 1 (by decide) (by decide) (by decide)

/-- Claim C9, counterexample: the configuration
`{base=2, factor=2, limit=2^62, retry=0}` is accepted by `NewService`, and
for the entry `{deadline 0, count 32}` two successive refreshes at the same
time (the clock does not go backwards) produce a deadline that jumps
BACKWARDS: the delay grows from `2^33` s to `2^34` s, whose nanosecond
value overflows `int64` and wraps negative, landing the new deadline about
40 years before the previous one. -/
theorem refresh_deadline_overflow :
    ValidConfig ⟨2, 2, 4611686018427387904, 0⟩ ∧
    (Penalty.Refresh ⟨0, 32⟩ ⟨2, 2, 4611686018427387904, 0⟩ 0).Deadline
      = 8589934592000000000 ∧
    ((Penalty.Refresh ⟨0, 32⟩ ⟨2, 2, 4611686018427387904, 0⟩ 0).Refresh
        ⟨2, 2, 4611686018427387904, 0⟩ 0).Deadline = -1266874889709551616 ∧
    ((Penalty.Refresh ⟨0, 32⟩ ⟨2, 2, 4611686018427387904, 0⟩ 0).Refresh
        ⟨2, 2, 4611686018427387904, 0⟩ 0).Deadline
      < (Penalty.Refresh ⟨0, 32⟩ ⟨2, 2, 4611686018427387904, 0⟩ 0).Deadline := by
  decide

/-! ### Cryptographic primitives (part_006, lines 24-88 and 154-166)

Bytes are `Fin 256`; the fixed-size `Hash` array (`[HashSize]byte`) is a
function out of `Fin HashSize`; byte slices are lists. -/

abbrev Byte := Fin 256

def HashSize : Nat := 64

abbrev Hash := Fin HashSize → Byte

/-- Semantics of Go's `copy(dst, src)`: overwrite the first
`min |dst| |src|` entries of `dst` with those of `src`; the length of the
destination buffer never changes. -/
def goCopy (dst src : List Byte) : List Byte :=
  src.take dst.length ++ dst.drop src.length

/-- Stand-in for the SHAKE-256 extendable-output function of
`golang.org/x/crypto/sha3` (external to this repository): a fixed
computable function producing `n` output bytes from the input data.  The
development uses only the properties that also hold of the real XOF: the
output is a function of `data` and `n` alone, and it has length `n`;
wherever collision behaviour of the real SHAKE-256 would matter, the
theorems carry the digest-inequality hypothesis explicitly. -/
def shakeXOF (data : String) (n : Nat) : List Byte :=
  (List.range n).map
    (fun i => ⟨(data.toList.foldl (fun h c => h * 257 + c.toNat + 1) 7
                  * (i + 1) + i) % 256, Nat.mod_lt _ (by norm_num)⟩)

/-- Semantics of `sha3.ShakeSum256(hash, data)`: the buffer `hash` is
overwritten with a digest of `data` of the buffer's length; the prior
contents of `hash` are ignored. -/
def shakeSum256 (hash : List Byte) (data : String) : List Byte :=
  shakeXOF data hash.length

/-- Model of `copy(secret[:], b[:HashSize])`: read an array out of the
first `HashSize` bytes of a buffer. -/
def listToHash (l : List Byte) : Hash := fun i => l.getD i 0

/-- Embedding of `ToByteSlice`: render a hash as a byte slice. -/
def ToByteSlice (h : Hash) : List Byte := List.ofFn h

def hexChar (n : Nat) : Char :=
  if n < 10 then Char.ofNat (48 + n) else Char.ofNat (87 + n)

/-- Lowercase hex rendering of one byte, as `hex.EncodeToString` emits. -/
def byteHex (b : Byte) : List Char := [hexChar (b.val / 16), hexChar (b.val % 16)]

/-- Embedding of `hex.EncodeToString`. -/
def hexEncode (l : List Byte) : String :=
  String.mk (l.foldr (fun b acc => byteHex b ++ acc) [])

/-- Embedding of `Hash.HexString`. -/
def HexString (h : Hash) : String := hexEncode (ToByteSlice h)

/-- Embedding of `bytes.Equal`: equal lengths and equal contents. -/
def bytesEqual (a b : List Byte) : Bool := decide (a = b)

/-- Embedding of `NewSecret` (success path; the bytes delivered by
`rand.Read` are the explicit `randBytes` argument): the salt is the random
buffer, and the secret is the buffer after `ShakeSum256` overwrites it with
a digest of the password digest. -/
def NewSecret (digest : String) (randBytes : List Byte) : Hash × Hash :=
  let b := goCopy (List.replicate HashSize 0) randBytes
  let salt := listToHash b
  let b2 := shakeSum256 b digest
  let secret := listToHash b2
  (secret, salt)

/-- Embedding of `ToSecret`: copy the salt into a fresh buffer, overwrite
the buffer via `ShakeSum256`, and read the secret out of it. -/
def ToSecret (digest : String) (salt : Hash) : Hash :=
  let b := goCopy (List.replicate HashSize 0) (ToByteSlice salt)
  let b2 := shakeSum256 b digest
  listToHash b2

/-- Embedding of `Compare`: recompute the hash over a buffer seeded with
the salt and compare it byte-for-byte against the expected hash. -/
def Compare (digest : String) (salt hash : List Byte) : Bool :=
  let b := goCopy (List.replicate HashSize 0) salt
  let b2 := shakeSum256 b digest
  bytesEqual b2 hash

/-! ### Sessions (part_006, lines 168-255 and 363-413) -/

def MinSessionPeriod : Int := 1 * nsPerSecond

def MaxSessionPeriod : Int := 3600 * nsPerSecond

structure Session where
  Expiration : Int
  Period     : Int
  IP         : String
  Secret     : Hash

/-- The zero value `Session{}` returned on the failure paths of
`Authenticate`. -/
def emptySession : Session :=
  { Expiration := 0, Period := 0, IP := "", Secret := fun _ => 0 }

/-- Embedding of `Session.Expired`: `time.Now().UTC().After(Expiration)`. -/
def Session.Expired (s : Session) (now : Int) : Bool := decide (now > s.Expiration)

/-- Embedding of `Session.Renew`: same period, address and secret, with the
expiration reset to `now` plus the period. -/
def Session.Renew (s : Session) (now : Int) : Session :=
  { Expiration := now + s.Period, Period := s.Period, IP := s.IP, Secret := s.Secret }

/-- Embedding of `NewSession`: fails when the random source fails,
otherwise carries the address, the period, an expiration of `now` plus the
period, and a secret copied out of the random buffer. -/
def NewSession (ip : String) (period : Int) (now : Int)
    (rand : Except String (List Byte)) : Except String Session :=
  match rand with
  | .error e => .error e
  | .ok b =>
      .ok { Expiration := now + period
            Period     := period
            IP         := ip
            Secret     := listToHash (goCopy (List.replicate HashSize 0) b) }

/-- The service's session map (`SyncMap[string, Session]`). -/
def SMap := String → Option Session

/-- Embedding of `SyncMap.Put` on the session map. -/
def mapPut (m : SMap) (k : String) (v : Session) : SMap :=
  fun k' => if k' = k then some v else m k'

/-- Embedding of `strconv.Atoi`: an optional sign followed by at least one
decimal digit, with the value required to fit a 64-bit signed integer
(`Atoi` reports `ErrRange` otherwise, and the caller only uses the value
when the error is nil). -/
def goAtoi (s : String) : Option Int :=
  let p : Bool × List Char :=
    match s.toList with
    | '+' :: rest => (false, rest)
    | '-' :: rest => (true, rest)
    | cs          => (false, cs)
  if p.2 = [] ∨ ¬ p.2.all Char.isDigit then none
  else
    let n : Nat := p.2.foldl (fun acc c => acc * 10 + (c.toNat - 48)) 0
    let v : Int := if p.1 then -(n : Int) else (n : Int)
    if v < -2 ^ 63 ∨ 2 ^ 63 ≤ v then none else some v

/-- The session period computed by `Authenticate`: the maximum by default,
or the requested second count converted to a duration (an `int64`
multiplication by `time.Second`, which wraps on overflow) clamped between
the minimum and maximum when the period string parses. -/
def sessionPeriodOf (period : String) : Int :=
  match goAtoi period with
  | some v => max (min (wrap64 (v * nsPerSecond)) MaxSessionPeriod) MinSessionPeriod
  | none   => MaxSessionPeriod

/-- Embedding of `Service.Authenticate`.  The verification callback's
outcome is the explicit pair `f`; the randomness consumed by `NewSession`
is the explicit `rand` argument.  Returns the updated session map together
with the `(Session, bool, error)` triple the Go method returns. -/
def Authenticate (m : SMap) (now : Int) (ip username period : String)
    (f : Bool × Option String) (rand : Except String (List Byte)) :
    SMap × Session × Bool × Option String :=
  match f with
  | (ok, some e)  => (m, emptySession, ok, some e)
  | (false, none) => (m, emptySession, false, none)
  | (true, none)  =>
      match NewSession ip (sessionPeriodOf period) now rand with
      | .error e => (m, emptySession, true, some e)
      | .ok z    => (mapPut m username z, z, true, none)

/-- Embedding of `Service.Authorized`.  Returns the updated session map
together with the returned error (`none` on success). -/
def Authorized (m : SMap) (now : Int) (ip username secret : String) :
    SMap × Option String :=
  match m username with
  | none => (m, some ("No session for username \"" ++ username ++ "\""))
  | some z =>
      if secret ≠ HexString z.Secret then (m, some "Session secret mismatch")
      else if ip ≠ z.IP then (m, some "Session IP mismatch")
      else if z.Expired now then (m, some "Session expired")
      else (mapPut m username (z.Renew now), none)

/-! ### Crypto and session lemmas -/

/-- `copy` never changes the length of the destination buffer. -/
theorem goCopy_length (dst src : List Byte) : (goCopy dst src).length = dst.length := by
  simp [goCopy]
  omega

/-- The XOF stand-in produces the requested number of bytes. -/
theorem shakeXOF_length (d : String) (n : Nat) : (shakeXOF d n).length = n := by
  simp [shakeXOF]

/-- `ToSecret` reduces to the digest of the password digest alone: the
buffer seeded with the salt is fully overwritten by `ShakeSum256`. -/
theorem ToSecret_eq (digest : String) (salt : Hash) :
    ToSecret digest salt = listToHash (shakeXOF digest HashSize) := by
  simp only [ToSecret, shakeSum256, goCopy_length, List.length_replicate]

/-- `Compare` reduces to comparing the digest of the password digest
against the expected hash: the salt only seeds an overwritten buffer. -/
theorem Compare_eq (digest : String) (salt h : List Byte) :
    Compare digest salt h = bytesEqual (shakeXOF digest HashSize) h := by
  simp only [Compare, shakeSum256, goCopy_length, List.length_replicate]

/-- The secret produced by `NewSecret` is the digest of the password digest
alone. -/
theorem NewSecret_fst (digest : String) (r : List Byte) :
    (NewSecret digest r).1 = listToHash (shakeXOF digest HashSize) := by
  simp only [NewSecret, shakeSum256, goCopy_length, List.length_replicate]

/-- Reading an array out of a 64-byte buffer and rendering it back as a
slice is the identity. -/
theorem toByteSlice_listToHash (l : List Byte) (hl : l.length = HashSize) :
    ToByteSlice (listToHash l) = l := by
  unfold ToByteSlice listToHash
  apply List.ext_getElem
  · simpa using hl.symm
  · intro i h1 h2
    simp only [List.getElem_ofFn]
    exact List.getD_eq_getElem l 0 h2

theorem mapPut_same (m : SMap) (k : String) (v : Session) :
    mapPut m k v k = some v := by
  simp [mapPut]

theorem mapPut_other (m : SMap) (k k' : String) (v : Session) (h : k' ≠ k) :
    mapPut m k v k' = m k' := by
  simp [mapPut, h]

/-- The session period computed by `Authenticate` always lies between the
minimum and the maximum. -/
theorem sessionPeriodOf_bounds (period : String) :
    MinSessionPeriod ≤ sessionPeriodOf period ∧
    sessionPeriodOf period ≤ MaxSessionPeriod := by
  unfold sessionPeriodOf
  cases goAtoi period with
  | none =>
      refine ⟨?_, le_refl _⟩
      norm_num [MinSessionPeriod, MaxSessionPeriod, nsPerSecond]
  | some v =>
      refine ⟨le_max_right _ _, max_le (min_le_right _ _) ?_⟩
      norm_num [MinSessionPeriod, MaxSessionPeriod, nsPerSecond]

/-- The session period computed by `Authenticate` is positive. -/
theorem sessionPeriodOf_pos (period : String) : 0 < sessionPeriodOf period := by
  have h := (sessionPeriodOf_bounds period).1
  have : (0:Int) < MinSessionPeriod := by norm_num [MinSessionPeriod, nsPerSecond]
  omega

/-- The all-zero hash value. -/
def zeroHash : Hash := fun _ => 0

/-- `Compare` accepts the secret `ToSecret` derives from the same digest
and salt. -/
theorem Compare_toSecret_self (p : String) (s : Hash) :
    Compare p (ToByteSlice s) (ToByteSlice (ToSecret p s)) = true := by
  rw [Compare_eq, ToSecret_eq, toByteSlice_listToHash _ (shakeXOF_length p HashSize)]
  simp [bytesEqual]

/-- `Compare` rejects a secret derived from a digest whose hash differs. -/
theorem Compare_toSecret_ne (p p' : String) (s : Hash)
    (hne : shakeXOF p' HashSize ≠ shakeXOF p HashSize) :
    Compare p (ToByteSlice s) (ToByteSlice (ToSecret p' s)) = false := by
  rw [Compare_eq, ToSecret_eq, toByteSlice_listToHash _ (shakeXOF_length p' HashSize)]
  simp [bytesEqual]
  exact Ne.symm hne

/-! ### Claim C2 -/

/-- Claim C2: the derived secret is independent of the salt.  For every
digest and any two salts, `ToSecret` yields the same secret and `Compare`
yields the same verdict against any expected hash, because `ShakeSum256`
overwrites the buffer holding the salt with a hash computed from the
digest alone; likewise the secret component returned by `NewSecret` does
not depend on the freshly drawn random bytes that become the salt. -/
theorem secret_independent_of_salt (digest : String) (s1 s2 : Hash)
    (h : List Byte) (r1 r2 : List Byte) :
    ToSecret digest s1 = ToSecret digest s2 ∧
    Compare digest (ToByteSlice s1) h = Compare digest (ToByteSlice s2) h ∧
    (NewSecret digest r1).1 = (NewSecret digest r2).1 := by
  refine ⟨?_, ?_, ?_⟩
  · rw [ToSecret_eq, ToSecret_eq]
  · rw [Compare_eq, Compare_eq]
  · rw [NewSecret_fst, NewSecret_fst]

/-! ### Claim C7 -/

/-- Claim C7, amended: for every password digest `p` and salt `s`,
`Compare(p, s, ToSecret(p, s))` returns true; and
`Compare(p, s, ToSecret(p', s))` returns false for every `p'` whose
64-byte digest differs from that of `p`.  The hypothesis is necessary: a
function from the infinitely many strings into 64-byte digests cannot be
injective, so the unrestricted "false for every `p' ≠ p`" cannot hold (see
the accompanying counterexample). -/
theorem compare_toSecret (p p' : String) (s : Hash)
    (hne : shakeXOF p' HashSize ≠ shakeXOF p HashSize) :
    Compare p (ToByteSlice s) (ToByteSlice (ToSecret p s)) = true ∧
    Compare p (ToByteSlice s) (ToByteSlice (ToSecret p' s)) = false :=
  ⟨Compare_toSecret_self p s, Compare_toSecret_ne p p' s hne⟩

/-- Witness for `compare_toSecret` at the digests `"a"` and `"b"` and the
all-zero salt. -/
theorem compare_toSecret_witness :
    shakeXOF "b" HashSize ≠ shakeXOF "a" HashSize ∧
    (Compare "a" (ToByteSlice zeroHash) (ToByteSlice (ToSecret "a" zeroHash)) = true ∧
     Compare "a" (ToByteSlice zeroHash) (ToByteSlice (ToSecret "b" zeroHash)) = false) :=
  ⟨by decide, compare_toSecret "a" "b" zeroHash (by decide)⟩

/-- Claim C7, counterexample: the claim as stated — `Compare` returns
false for EVERY `p'` different from `p` — is impossible for the code's
fixed 64-byte digests: strings are infinite while 64-byte hashes are
finitely many, so two distinct digest strings collide (pigeonhole) and
`Compare` accepts the secret derived from the other one. -/
theorem compare_not_injective :
    ¬ ∀ (p p' : String) (s : Hash), p' ≠ p →
        Compare p (ToByteSlice s) (ToByteSlice (ToSecret p' s)) = false := by
  intro hall
  haveI : Infinite String :=
    Infinite.of_injective (fun n : Nat => String.mk (List.replicate n 'a'))
      (by
        intro a b hab
        have h2 : List.replicate a 'a' = List.replicate b 'a' :=
          congrArg String.data hab
        have h3 := congrArg List.length h2
        simpa using h3)
  obtain ⟨x, y, hxy, hf⟩ :=
    Finite.exists_ne_map_eq_of_infinite (fun s : String => ToSecret s zeroHash)
  have htrue : Compare y (ToByteSlice zeroHash)
      (ToByteSlice (ToSecret x zeroHash)) = true := by
    rw [hf]
    exact Compare_toSecret_self y zeroHash
  have hfalse := hall y x zeroHash hxy
  rw [htrue] at hfalse
  exact Bool.noConfusion hfalse

/-! ### Claim C3 -/

/-- Claim C3: `Authorized(ip, username, secret)` fails exactly when (a) no
session is stored for the username, (b) the presented secret differs from
the hex rendering of the stored secret, (c) the address differs from the
one recorded at session creation, or (d) the stored expiration lies
strictly in the past; otherwise it succeeds and replaces the stored
session with one expiring at `now` plus the stored period, with secret,
address and period unchanged. -/
theorem authorized_error_conditions (m : SMap) (now : Int) (ip u secret : String) :
    ((Authorized m now ip u secret).2.isSome = true ↔
      m u = none ∨ ∃ z, m u = some z ∧
        (secret ≠ HexString z.Secret ∨ ip ≠ z.IP ∨ z.Expiration < now)) ∧
    (∀ z, m u = some z → secret = HexString z.Secret → ip = z.IP →
      now ≤ z.Expiration →
      Authorized m now ip u secret
        = (mapPut m u { Expiration := now + z.Period, Period := z.Period,
                        IP := z.IP, Secret := z.Secret }, none)) := by
  constructor
  · cases hm : m u with
    | none => simp [Authorized, hm]
    | some z =>
        simp only [Authorized, hm]
        split_ifs with h1 h2 h3 <;> simp_all [Session.Expired]
  · intro z hz hsec hip hexp
    simp only [Authorized, hz]
    rw [if_neg (fun hcon => hcon hsec), if_neg (fun hcon => hcon hip),
        if_neg (by simp [Session.Expired]; omega)]
    rfl

/-- A concrete session stored for `"alice"`, used by witnesses. -/
def sampleSession : Session :=
  { Expiration := 10, Period := 7, IP := "ip1", Secret := zeroHash }

/-- A session map holding only `sampleSession` under `"alice"`. -/
def sampleMap : SMap := mapPut (fun _ => none) "alice" sampleSession

/-- Witness for `authorized_error_conditions`: the success-and-renewal case
at a concrete unexpired session. -/
theorem authorized_error_conditions_witness :
    Authorized sampleMap 5 "ip1" "alice" (HexString zeroHash)
      = (mapPut sampleMap "alice"
          { Expiration := 5 + 7, Period := 7, IP := "ip1", Secret := zeroHash },
         none) :=
  (authorized_error_conditions sampleMap 5 "ip1" "alice" (HexString zeroHash)).2
    sampleSession rfl rfl rfl (by decide)

/-! ### Claim C4 -/

/-- Claim C4: for every address, username and period spec, a successful
`Authenticate` followed immediately by `Authorized` with the returned
session's secret hex string, the same username and the same address
succeeds; `Authorized` with a different address, a different presented
secret, or a different username (one holding no session) fails with an
error. -/
theorem authenticate_authorized_roundtrip
    (m : SMap) (now : Int) (ip u period : String) (b : List Byte)
    (m' : SMap) (z : Session)
    (hA : Authenticate m now ip u period (true, none) (.ok b) = (m', z, true, none)) :
    (Authorized m' now ip u (HexString z.Secret)).2 = none ∧
    (∀ ip', ip' ≠ ip → (Authorized m' now ip' u (HexString z.Secret)).2.isSome = true) ∧
    (∀ s', s' ≠ HexString z.Secret → (Authorized m' now ip u s').2.isSome = true) ∧
    (∀ u', u' ≠ u → m u' = none →
      (Authorized m' now ip u' (HexString z.Secret)).2.isSome = true) := by
  simp only [Authenticate, NewSession, Prod.mk.injEq] at hA
  obtain ⟨hm', hz, -⟩ := hA
  subst hm'
  subst hz
  refine ⟨?_, ?_, ?_, ?_⟩
  · simp only [Authorized, mapPut_same]
    rw [if_neg (fun hcon => hcon rfl), if_neg (fun hcon => hcon rfl),
        if_neg (by simp [Session.Expired]; have := sessionPeriodOf_pos period; omega)]
  · intro ip' hip'
    simp only [Authorized, mapPut_same]
    rw [if_neg (fun hcon => hcon rfl), if_pos hip']
    rfl
  · intro s' hs'
    simp only [Authorized, mapPut_same]
    rw [if_pos hs']
    rfl
  · intro u' hu' hnone
    simp only [Authorized]
    rw [mapPut_other m u u' _ hu', hnone]
    rfl

/-- Sessions-map outcome of a concrete successful `Authenticate`. -/
def sampleM : SMap :=
  (Authenticate (fun _ => none) 0 "ip1" "alice" "60" (true, none)
    (.ok (List.replicate HashSize 0))).1

/-- Session returned by a concrete successful `Authenticate`. -/
def sampleZ : Session :=
  (Authenticate (fun _ => none) 0 "ip1" "alice" "60" (true, none)
    (.ok (List.replicate HashSize 0))).2.1

/-- Witness for `authenticate_authorized_roundtrip` at a concrete login. -/
theorem authenticate_authorized_roundtrip_witness :
    (Authorized sampleM 0 "ip1" "alice" (HexString sampleZ.Secret)).2 = none ∧
    (Authorized sampleM 0 "ip2" "alice" (HexString sampleZ.Secret)).2.isSome = true ∧
    (Authorized sampleM 0 "ip1" "alice" "nothex").2.isSome = true ∧
    (Authorized sampleM 0 "ip1" "bob" (HexString sampleZ.Secret)).2.isSome = true := by
  obtain ⟨h1, h2, h3, h4⟩ :=
    authenticate_authorized_roundtrip (fun _ => none) 0 "ip1" "alice" "60"
      (List.replicate HashSize 0) sampleM sampleZ rfl
  exact ⟨h1, h2 "ip2" (by decide), h3 "nothex" (by decide), h4 "bob" (by decide) rfl⟩

/-! ### Claim C5 -/

/-- Claim C5, amended: on a successful verification, `Authenticate` parses
the period argument as an integer count of seconds, converts it to
nanoseconds by an `int64` multiplication with `time.Second` (which wraps on
overflow), and clamps the wrapped value into
`[MinSessionPeriod, MaxSessionPeriod]`; whenever the nanosecond value fits
`int64` this is exactly the clamp of the requested seconds; a malformed or
absent period falls back to the maximum (1 hour); the stored session
carries exactly this period and overwrites any session stored for the
username. -/
theorem authenticate_period_clamp
    (m : SMap) (now : Int) (ip u period : String) (b : List Byte)
    (m' : SMap) (z : Session)
    (hA : Authenticate m now ip u period (true, none) (.ok b) = (m', z, true, none)) :
    z.Period = sessionPeriodOf period ∧
    MinSessionPeriod ≤ z.Period ∧
    z.Period ≤ MaxSessionPeriod ∧
    (goAtoi period = none → z.Period = MaxSessionPeriod) ∧
    (∀ v, goAtoi period = some v →
      z.Period = max (min (wrap64 (v * nsPerSecond)) MaxSessionPeriod) MinSessionPeriod) ∧
    (∀ v, goAtoi period = some v → -2 ^ 63 ≤ v * nsPerSecond →
      v * nsPerSecond < 2 ^ 63 →
      z.Period = max (min (v * nsPerSecond) MaxSessionPeriod) MinSessionPeriod) ∧
    m' u = some z := by
  simp only [Authenticate, NewSession, Prod.mk.injEq] at hA
  obtain ⟨hm', hz, -⟩ := hA
  subst hm'
  subst hz
  refine ⟨rfl, (sessionPeriodOf_bounds period).1, (sessionPeriodOf_bounds period).2,
    ?_, ?_, ?_, mapPut_same m u _⟩
  · intro hnone
    have : sessionPeriodOf period = MaxSessionPeriod := by
      unfold sessionPeriodOf; rw [hnone]
    exact this
  · intro v hv
    have : sessionPeriodOf period
        = max (min (wrap64 (v * nsPerSecond)) MaxSessionPeriod) MinSessionPeriod := by
      unfold sessionPeriodOf; rw [hv]
    exact this
  · intro v hv hlo hhi
    have : sessionPeriodOf period
        = max (min (v * nsPerSecond) MaxSessionPeriod) MinSessionPeriod := by
      unfold sessionPeriodOf
      rw [hv]
      show max (min (wrap64 (v * nsPerSecond)) MaxSessionPeriod) MinSessionPeriod = _
      rw [wrap64_eq_self hlo hhi]
    exact this

/-- Witness for `authenticate_period_clamp` at the period string `"60"`. -/
theorem authenticate_period_clamp_witness :
    sampleZ.Period = sessionPeriodOf "60" ∧
    sampleZ.Period = max (min ((60:Int) * nsPerSecond) MaxSessionPeriod) MinSessionPeriod ∧
    sampleM "alice" = some sampleZ := by
  obtain ⟨h1, -, -, -, -, h6, h7⟩ :=
    authenticate_period_clamp (fun _ => none) 0 "ip1" "alice" "60"
      (List.replicate HashSize 0) sampleM sampleZ rfl
  exact ⟨h1, h6 60 (by decide) (by decide) (by decide), h7⟩

/-- Claim C5, counterexample: the period string `"10000000000"` (10^10
seconds, far above one hour) parses successfully, and the claim's clamp of
the resulting duration into `[1 s, 1 h]` would give the maximum of 1 hour —
but the code's `int64` conversion to nanoseconds wraps negative and the
stored session period is the MINIMUM of 1 second instead. -/
theorem authenticate_period_overflow :
    goAtoi "10000000000" = some 10000000000 ∧
    (Authenticate (fun _ => none) 0 "ip1" "alice" "10000000000" (true, none)
        (.ok (List.replicate HashSize 0))).2.1.Period = MinSessionPeriod ∧
    max (min ((10000000000:Int) * nsPerSecond) MaxSessionPeriod) MinSessionPeriod
      = MaxSessionPeriod ∧
    MinSessionPeriod ≠ MaxSessionPeriod := by
  decide

/-! ### Claim C6 -/

/-- Claim C6: when the verification callback reports a non-nil error,
`Authenticate` returns that same error unchanged and the session map is
unchanged (no session created or overwritten); when it reports
`(false, nil)`, `Authenticate` returns the empty session, `false` and a
nil error, with the session map likewise unchanged. -/
theorem authenticate_verify_failure
    (m : SMap) (now : Int) (ip u period : String)
    (rand : Except String (List Byte)) (ok : Bool) (e : String) :
    Authenticate m now ip u period (ok, some e) rand = (m, emptySession, ok, some e) ∧
    Authenticate m now ip u period (false, none) rand = (m, emptySession, false, none) := by
  refine ⟨?_, rfl⟩
  cases ok <;> rfl

end Auth
